import Mathlib

/-
Verification development for the krystal PowerMapper network-analysis engine
(src/core/src/krystal/power_mapper.py).

The Python code is shallowly embedded: Python dicts become insertion-ordered
association lists, Python numbers (ints and floats alike) become exact
rationals, and the networkx library calls used by the engine are embedded by
their documented algorithms.  Exceptions cannot occur on the code paths the
theorems exercise except where explicitly noted in comments.
-/

namespace Krystal

/-- A Python value appearing in an entity/relationship record: a string or a
number.  Python ints and floats are both modelled as exact rationals (float
rounding is idealised away; every concrete input used below is exactly
representable). -/
inductive Val where
  | str (s : String)
  | num (q : ℚ)
deriving DecidableEq

/-- A Python dict with string keys, modelled as an insertion-ordered
association list (keys are unique in any record produced by Python). -/
abbrev PyDict := List (String × Val)

namespace PyDict

/-- `d.get(k)` / `k in d`: first binding of `k`, if any. -/
def get (r : PyDict) (k : String) : Option Val :=
  match r with
  | [] => none
  | (k', v) :: rest => if k' = k then some v else get rest k

/-- `d[k] = v`: Python dict assignment — an existing key keeps its position and
has its value replaced; a new key is appended at the end. -/
def set (r : PyDict) (k : String) (v : Val) : PyDict :=
  if r.any (fun p => p.1 = k) then
    r.map (fun p => if p.1 = k then (k, v) else p)
  else
    r ++ [(k, v)]

/-- `d.update(other)`: assign every binding of `other` into `d`, in order. -/
def update (d other : PyDict) : PyDict :=
  other.foldl (fun acc p => acc.set p.1 p.2) d

end PyDict

/-- The entity table `self.entities`: a Python dict keyed by entity id,
modelled as an insertion-ordered association list over `Val` keys. -/
abbrev EntityTable := List (Val × PyDict)

/-- Dict-comprehension insertion: an existing key keeps its position and gets
the new value (last write wins); a new key is appended. -/
def tableInsert (t : EntityTable) (k : Val) (r : PyDict) : EntityTable :=
  if t.any (fun p => p.1 = k) then
    t.map (fun p => if p.1 = k then (k, r) else p)
  else
    t ++ [(k, r)]

/-- Lookup in the entity table (`self.entities[k]` / `k in self.entities`). -/
def tableGet (t : EntityTable) (k : Val) : Option PyDict :=
  match t with
  | [] => none
  | (k', v) :: rest => if k' = k then some v else tableGet rest k

/-- `str(x)` as used on candidate ids in the builder.  String values are
returned unchanged; integral numbers render in decimal like Python ints.
(Non-integral floats render differently in Python; no claim and no concrete
input below uses a non-integral numeric name.) -/
def pyStr : Val → String
  | .str s => s
  | .num q => if q.den = 1 then toString q.num else toString q

/-- `''.join(c for c in s if c.isalnum() or c in ('_','-')).lower()` —
the id slug.  `isalnum`/`lower` are modelled on ASCII. -/
def slug (s : String) : String :=
  String.mk (((s.data.filter (fun c => c.isAlphanum || c = '_' || c = '-')).map Char.toLower))

/-- The `undirected` simple graph `self.graph`: node list plus an edge list;
each edge stores the (ordered as first inserted) endpoint pair and its
attribute dict. -/
structure Graph where
  nodes : List Val
  edges : List ((Val × Val) × PyDict)
deriving DecidableEq

/-- Whether two endpoint pairs denote the same undirected edge. -/
def pairMatches (p q : Val × Val) : Bool :=
  decide ((p.1 = q.1 ∧ p.2 = q.2) ∨ (p.1 = q.2 ∧ p.2 = q.1))

/-- `networkx.Graph.add_edge(u, v, **data)`: missing endpoints are created as
nodes; an existing (undirected) edge keeps its position and endpoint order and
has `data` merged into its attribute dict via `dict.update`; otherwise a fresh
edge is appended whose attribute dict is a copy of `data`. -/
def Graph.addEdge (g : Graph) (u v : Val) (data : PyDict) : Graph :=
  let ns := if g.nodes.contains u then g.nodes else g.nodes ++ [u]
  let ns := if ns.contains v then ns else ns ++ [v]
  if g.edges.any (fun e => pairMatches e.1 (u, v)) then
    { nodes := ns,
      edges := g.edges.map (fun e =>
        if pairMatches e.1 (u, v) then (e.1, e.2.update data) else e) }
  else
    { nodes := ns, edges := g.edges ++ [((u, v), PyDict.update [] data)] }

/-- `self.min_relationship_strength` (constructor default). -/
def minRelationshipStrength : ℚ := 1/10

/-- `rel.get('strength', 0.5)`. -/
def strengthVal (r : PyDict) : Val :=
  (r.get "strength").getD (.num (1/2))

/-- `weight >= self.min_relationship_strength`.  A non-numeric strength value
makes the Python comparison raise an uncaught `TypeError`; theorems whose
meaning could depend on that path assume numeric-or-absent strengths. -/
def passesStrength (r : PyDict) : Bool :=
  match strengthVal r with
  | .num q => decide (minRelationshipStrength ≤ q)
  | .str _ => false

/-- The id-synthesis loop of `_build_network`: a record lacking `'id'` gets
`entity['id'] = slug(str(entity.get('name', f"entity_{i}")))` assigned in
place (the caller's record is mutated); records with an id are untouched. -/
def processEntities (ents : List PyDict) : List PyDict :=
  ents.enum.map (fun p =>
    if (p.2.get "id").isSome then p.2
    else p.2.set "id"
      (.str (slug (pyStr ((p.2.get "name").getD (.str ("entity_" ++ toString p.1)))))))

/-- `{entity['id']: entity for entity in processed_entities}` — last write
wins on duplicate ids, first-occurrence key order.  (Every processed record
has an `'id'`; the `getD` default is unreachable.) -/
def buildTable (pes : List PyDict) : EntityTable :=
  pes.foldl (fun t e => tableInsert t ((e.get "id").getD (.str "")) e) []

/-- One iteration of the relationship loop of `_build_network`: resolve
`source`/`target` against the entity table, keep the record only when both
resolve and its effective strength passes the threshold, and insert it via
`add_edge` (all record fields become edge attributes). -/
def addRelStep (table : EntityTable) (g : Graph) (rel : PyDict) : Graph :=
  match rel.get "source", rel.get "target" with
  | some s, some t =>
    if (tableGet table s).isSome ∧ (tableGet table t).isSome then
      if passesStrength rel then g.addEdge s t rel else g
    else g
  | _, _ => g

/-- The relationship loop of `_build_network`. -/
def addRelationships (g : Graph) (table : EntityTable) (rels : List PyDict) : Graph :=
  rels.foldl (addRelStep table) g

/-- `PowerMapper._build_network`: returns the graph, the entity table, and the
final states of the caller's entity records (which Python mutates in place
when synthesising ids). -/
def buildNetwork (ents rels : List PyDict) : Graph × EntityTable × List PyDict :=
  let pes := processEntities ents
  let table := buildTable pes
  let g0 : Graph := { nodes := table.map (fun p => p.1), edges := [] }
  (addRelationships g0 table rels, table, pes)

/-- Generic association-list lookup with `Val` keys. -/
def alookup {β : Type} (l : List (Val × β)) (v : Val) : Option β :=
  match l with
  | [] => none
  | (k, x) :: rest => if k = v then some x else alookup rest v

/-- The adjacency list of `v` (each neighbour once; a self-loop contributes a
single adjacency entry, exactly as in networkx). -/
def Graph.neighbors (g : Graph) (v : Val) : List Val :=
  g.edges.foldl (fun acc e =>
    if e.1.1 = v ∧ e.1.2 = v then acc ++ [v]
    else if e.1.1 = v then acc ++ [e.1.2]
    else if e.1.2 = v then acc ++ [e.1.1]
    else acc) []

/-- `G.degree(v)`: incident edge endpoints; a self-loop counts twice. -/
def Graph.degree (g : Graph) (v : Val) : ℕ :=
  g.edges.foldl (fun acc e =>
    acc + (if e.1.1 = v then 1 else 0) + (if e.1.2 = v then 1 else 0)) 0

/-- `nx.density`: `2m / (n(n-1))`, and `0` when `m = 0` or `n ≤ 1`. -/
def Graph.density (g : Graph) : ℚ :=
  let n := g.nodes.length
  let m := g.edges.length
  if m = 0 ∨ n ≤ 1 then 0
  else 2 * (m : ℚ) / ((n : ℚ) * ((n : ℚ) - 1))

/-- Layered breadth-first search: extend the visited distance map by one layer
per step of fuel. -/
def bfsAux (g : Graph) : ℕ → List (Val × ℕ) → List Val → ℕ → List (Val × ℕ)
  | 0, visited, _, _ => visited
  | fuel + 1, visited, frontier, d =>
    let nxt := ((frontier.flatMap g.neighbors).filter
      (fun v => !(visited.any (fun p => p.1 == v)))).eraseDups
    match nxt with
    | [] => visited
    | _ => bfsAux g fuel (visited ++ nxt.map (fun v => (v, d + 1))) nxt (d + 1)

/-- Unweighted shortest-path distances from `s` (BFS); the domain is the set
of nodes reachable from `s`, including `s` itself at distance `0`. -/
def Graph.distsFrom (g : Graph) (s : Val) : List (Val × ℕ) :=
  bfsAux g g.nodes.length [(s, 0)] [s] 0

/-- `nx.connected_components`, as lists of nodes: BFS from each not-yet-seen
node in node order. -/
def Graph.components (g : Graph) : List (List Val) :=
  g.nodes.foldl (fun acc v =>
    if acc.any (fun c => c.contains v) then acc
    else acc ++ [(g.distsFrom v).map (fun p => p.1)]) []

/-- `nx.number_connected_components`. -/
def Graph.numComponents (g : Graph) : ℕ :=
  g.components.length

/-- `nx.is_connected` (callers only invoke it on non-empty graphs, where it is
everywhere defined; on the empty graph networkx raises and we return false). -/
def Graph.isConnected (g : Graph) : Bool :=
  match g.nodes with
  | [] => false
  | v :: _ => (g.distsFrom v).length == g.nodes.length

/-- `nx.degree_centrality`: degree divided by `n - 1`; a graph with at most
one node maps every node to `1`. -/
def degreeCentrality (g : Graph) : List (Val × ℚ) :=
  if g.nodes.length ≤ 1 then g.nodes.map (fun v => (v, 1))
  else g.nodes.map (fun v => (v, (g.degree v : ℚ) / ((g.nodes.length : ℚ) - 1)))

/-- Shortest-path distance from `s` to `v`, if reachable. -/
def distOfNode (g : Graph) (s v : Val) : Option ℕ :=
  alookup (g.distsFrom s) v

/-- Counts of shortest paths from `s`, tabulated layer by layer: a node at
distance `d + 1` has as many shortest paths from `s` as the sum over its
neighbours at distance `d`. -/
def sigmaTable (g : Graph) (s : Val) : ℕ → List (Val × ℕ)
  | 0 => [(s, 1)]
  | d + 1 =>
    let prev := sigmaTable g s d
    prev ++ (g.nodes.filter (fun v => distOfNode g s v == some (d + 1))).map
      (fun v => (v,
        ((g.neighbors v).filter (fun u => distOfNode g s u == some d)).foldl
          (fun acc u => acc + ((alookup prev u).getD 0)) 0))

/-- The number of shortest paths from `s` to `t` (`0` when unreachable). -/
def sigma (g : Graph) (s t : Val) : ℕ :=
  match distOfNode g s t with
  | none => 0
  | some d => (alookup (sigmaTable g s d) t).getD 0

/-- The pair dependency of ordered pair `(s, t)` on `v`: the fraction of
shortest `s`–`t` paths passing through the interior node `v`. -/
def pairDependency (g : Graph) (v s t : Val) : ℚ :=
  if s = t ∨ s = v ∨ t = v then 0
  else
    match distOfNode g s t, distOfNode g s v, distOfNode g v t with
    | some dst, some dsv, some dvt =>
      if dsv + dvt = dst then
        ((sigma g s v * sigma g v t : ℕ) : ℚ) / ((sigma g s t : ℕ) : ℚ)
      else 0
    | _, _, _ => 0

/-- Betweenness of `v` before normalisation: the sum of pair dependencies over
all ordered pairs (each unordered pair counts twice, as in undirected
Brandes accumulation). -/
def betweennessRaw (g : Graph) (v : Val) : ℚ :=
  (g.nodes.map (fun s => (g.nodes.map (fun t => pairDependency g v s t)).sum)).sum

/-- `nx.betweenness_centrality` with its default normalisation for undirected
graphs: scale by `1 / ((n-1)(n-2))` when `n > 2`, no rescaling otherwise. -/
def betweennessCentrality (g : Graph) : List (Val × ℚ) :=
  let n := g.nodes.length
  let scale : ℚ := if 2 < n then 1 / (((n : ℚ) - 1) * ((n : ℚ) - 2)) else 1
  g.nodes.map (fun v => (v, betweennessRaw g v * scale))

/-- `nx.closeness_centrality` (default `wf_improved=True`): for `r` reachable
nodes and total distance `tot`, the value is `((r-1)/tot) * ((r-1)/(n-1))`,
and `0` when `tot = 0` or the graph has at most one node. -/
def closenessCentrality (g : Graph) : List (Val × ℚ) :=
  g.nodes.map (fun u =>
    let sp := g.distsFrom u
    let tot : ℕ := (sp.map (fun p => p.2)).sum
    let r := sp.length
    (u, if 0 < tot ∧ 1 < g.nodes.length then
          (((r : ℚ) - 1) / (tot : ℚ)) * (((r : ℚ) - 1) / ((g.nodes.length : ℚ) - 1))
        else 0))

/-- Numbers of the form `a + b·√2` with rational `a`, `b`.  The eigenvector
power iteration of networkx runs in floating point; we model it in exact
arithmetic, and on the graphs considered here every intermediate value lies in
`ℚ[√2]`.  The representation is unique since `√2` is irrational. -/
structure QSqrt2 where
  a : ℚ
  b : ℚ
deriving DecidableEq

namespace QSqrt2

def ofRat (q : ℚ) : QSqrt2 := ⟨q, 0⟩

instance : Zero QSqrt2 := ⟨⟨0, 0⟩⟩

instance : One QSqrt2 := ⟨⟨1, 0⟩⟩

instance : Add QSqrt2 := ⟨fun x y => ⟨x.a + y.a, x.b + y.b⟩⟩

instance : Neg QSqrt2 := ⟨fun x => ⟨-x.a, -x.b⟩⟩

instance : Sub QSqrt2 := ⟨fun x y => ⟨x.a - y.a, x.b - y.b⟩⟩

instance : Mul QSqrt2 := ⟨fun x y => ⟨x.a * y.a + 2 * (x.b * y.b), x.a * y.b + x.b * y.a⟩⟩

/-- Whether `a + b·√2 ≥ 0`, decided by rational sign analysis. -/
def nonneg (x : QSqrt2) : Bool :=
  if 0 ≤ x.a then
    if 0 ≤ x.b then true else decide (2 * (x.b * x.b) ≤ x.a * x.a)
  else
    if 0 ≤ x.b then decide (x.a * x.a ≤ 2 * (x.b * x.b)) else false

def le (x y : QSqrt2) : Bool := nonneg (y - x)

def lt (x y : QSqrt2) : Bool := !(le y x)

def abs (x : QSqrt2) : QSqrt2 := if nonneg x then x else -x

/-- Multiplicative inverse (`0` maps to `0`): conjugate over norm. -/
def inv (x : QSqrt2) : QSqrt2 :=
  let d : ℚ := x.a * x.a - 2 * (x.b * x.b)
  ⟨x.a / d, -x.b / d⟩

def sum (l : List QSqrt2) : QSqrt2 := l.foldl (fun acc x => acc + x) 0

/-- Exact square root of a rational, if it exists. -/
def ratSqrt (q : ℚ) : Option ℚ :=
  if q < 0 then none
  else
    let n := Nat.sqrt q.num.toNat
    let d := Nat.sqrt q.den
    if n * n = q.num.toNat ∧ d * d = q.den then some (mkRat n d) else none

/-- Exact nonnegative square root in `ℚ[√2]`, if it exists there: candidate
roots are computed and verified by squaring, so `sqrt x = some r` implies
`r * r = x` and `nonneg r`. -/
def sqrt (x : QSqrt2) : Option QSqrt2 :=
  let cands : List QSqrt2 :=
    (match ratSqrt x.a with | some r => [⟨r, 0⟩] | none => []) ++
    (match ratSqrt (x.a / 2) with | some r => [⟨0, r⟩] | none => []) ++
    (match ratSqrt (x.a * x.a - 2 * (x.b * x.b)) with
     | some s =>
       (match ratSqrt ((x.a + s) / 2) with
        | some c => if c = 0 then [] else [⟨c, x.b / (2 * c)⟩]
        | none => []) ++
       (match ratSqrt ((x.a - s) / 2) with
        | some c => if c = 0 then [] else [⟨c, x.b / (2 * c)⟩]
        | none => [])
     | none => [])
  cands.find? (fun c => nonneg c && c * c == x)

end QSqrt2

/-- One pass of the accumulation loop of `nx.eigenvector_centrality`:
`x[nbr] += xlast[n]` over all adjacencies, starting from a copy of `xlast`,
i.e. `x'(v) = x(v) + Σ x(u)` over the neighbours `u` of `v`. -/
def eigStep (g : Graph) (x : List (Val × QSqrt2)) : List (Val × QSqrt2) :=
  g.nodes.map (fun v =>
    (v, ((alookup x v).getD 0) +
        QSqrt2.sum ((g.neighbors v).map (fun u => (alookup x u).getD 0))))

/-- The power-iteration loop: accumulate, normalise by the Euclidean norm
(`or 1` when zero), and stop once `Σ |x - xlast| < n·tol`.  `none` models
`PowerIterationFailedConvergence` (fuel exhausted), and also the modelling
gap where the norm leaves `ℚ[√2]` (floating-point Python would continue;
no claim below exercises that case). -/
def eigLoop (g : Graph) (tol : ℚ) : ℕ → List (Val × QSqrt2) → Option (List (Val × QSqrt2))
  | 0, _ => none
  | fuel + 1, x =>
    let y := eigStep g x
    match QSqrt2.sqrt (QSqrt2.sum (y.map (fun p => p.2 * p.2))) with
    | none => none
    | some norm0 =>
      let norm := if norm0 = 0 then 1 else norm0
      let x' := y.map (fun p => (p.1, p.2 * QSqrt2.inv norm))
      let diff := QSqrt2.sum (g.nodes.map (fun v =>
        QSqrt2.abs (((alookup x' v).getD 0) - ((alookup x v).getD 0))))
      if QSqrt2.lt diff (QSqrt2.ofRat ((g.nodes.length : ℚ) * tol)) then some x'
      else eigLoop g tol fuel x'

/-- `nx.eigenvector_centrality(graph, max_iter=1000, tol=1e-3)` with the
default uniform start vector `x(v) = 1/n`. -/
def eigenvectorCentrality (g : Graph) : Option (List (Val × QSqrt2)) :=
  let n := g.nodes.length
  if n = 0 then none
  else eigLoop g (1 / 1000) 1000 (g.nodes.map (fun v => (v, QSqrt2.ofRat (1 / (n : ℚ)))))

/-- The induced subgraph on a node set (`self.graph.subgraph(component)`). -/
def Graph.subgraph (g : Graph) (comp : List Val) : Graph :=
  { nodes := g.nodes.filter (fun v => comp.contains v),
    edges := g.edges.filter (fun e => comp.contains e.1.1 && comp.contains e.1.2) }

/-- The disconnected-graph branch of betweenness in `_calculate_centrality`:
betweenness per connected component (components of size 1 get `0.0`). -/
def perComponentBetweenness (g : Graph) : List (Val × ℚ) :=
  g.components.foldl (fun acc comp =>
    if 1 < comp.length then acc ++ betweennessCentrality (g.subgraph comp)
    else acc ++ comp.map (fun v => (v, (0 : ℚ)))) []

/-- The four centrality maps returned by `_calculate_centrality` when the
graph is non-degenerate. -/
structure CentralityMaps where
  degree_centrality : List (Val × ℚ)
  betweenness_centrality : List (Val × ℚ)
  eigenvector_centrality : List (Val × QSqrt2)
  closeness_centrality : List (Val × ℚ)
deriving DecidableEq

/-- Injection of a rational centrality map into `ℚ[√2]` values (used when the
code falls back to degree-centrality values for the eigenvector measure). -/
def toQ2Map (l : List (Val × ℚ)) : List (Val × QSqrt2) :=
  l.map (fun p => (p.1, QSqrt2.ofRat p.2))

/-- `PowerMapper._calculate_centrality`: `none` is the empty dict returned for
a graph with no nodes or no edges.  The `except` fallbacks for betweenness and
closeness are unreachable (those computations are total); the eigenvector
fallback to degree-centrality values covers both the disconnected/trivial
branch and a `PowerIterationFailedConvergence`. -/
def calculateCentrality (g : Graph) : Option CentralityMaps :=
  if g.nodes.length = 0 ∨ g.edges.length = 0 then none
  else some
    { degree_centrality := degreeCentrality g,
      betweenness_centrality :=
        if g.isConnected ∧ 2 < g.nodes.length then betweennessCentrality g
        else perComponentBetweenness g,
      eigenvector_centrality :=
        if g.isConnected ∧ 1 < g.nodes.length then
          match eigenvectorCentrality g with
          | some m => m
          | none => toQ2Map (degreeCentrality g)
        else toQ2Map (degreeCentrality g),
      closeness_centrality := closenessCentrality g }

/-- The entity-type multiplier dict of `_calculate_entity_influence`:
`{'corporation': 1.2, 'government': 1.3, 'person': 1.1, 'organization': 1.0}`
with default `1.0`. -/
def typeMultiplier (t : String) : ℚ :=
  if t = "corporation" then 1.2
  else if t = "government" then 1.3
  else if t = "person" then 1.1
  else if t = "organization" then 1.0
  else 1.0

/-- `PowerMapper._calculate_entity_influence`.  An id outside the graph scores
`0.0`.  A `type` value that is not a string makes `.lower()` raise an
`AttributeError`, which the surrounding handler turns into `0.0` (likewise a
`KeyError` on an id missing from the entity table, which cannot happen for a
graph made by the builder). -/
def calculateEntityInfluence (g : Graph) (entities : EntityTable) (entityId : Val) : ℚ :=
  if g.nodes.contains entityId then
    match tableGet entities entityId with
    | none => 0
    | some ent =>
      match ent.get "type" with
      | some (.num _) => 0
      | tv =>
        let entityType := match tv with | some (.str s) => s.toLower | _ => ""
        let centrality := (alookup (degreeCentrality g) entityId).getD 0
        let betweenness := (alookup (betweennessCentrality g) entityId).getD 0
        let baseInfluence := (centrality * 0.4 + betweenness * 0.6) * 100
        min (baseInfluence * typeMultiplier entityType) 100
  else 0

/-- The sort key `x.get('influence_score', 0)` (the loop has just assigned a
numeric score under that key, so the numeric branch always applies). -/
def influenceKey (r : PyDict) : ℚ :=
  match r.get "influence_score" with
  | some (.num q) => q
  | _ => 0

/-- The accumulation loop of `_calculate_influence_scores`: for each graph
node in order, a copy of its entity record with `influence_score` assigned
(`self.entities[entity_id].copy()` cannot raise for a builder-made graph;
the `getD []` default is unreachable). -/
def influenceList (g : Graph) (entities : EntityTable) : List PyDict :=
  g.nodes.map (fun entityId =>
    ((tableGet entities entityId).getD []).set "influence_score"
      (.num (calculateEntityInfluence g entities entityId)))

/-- `PowerMapper._calculate_influence_scores`: the influence list sorted by
`influence_score` descending.  `sorted(..., reverse=True)` is CPython's
stable sort under the reversed comparison; a stable sort by a total preorder
is unique, so `mergeSort` with the reversed comparison models it exactly. -/
def calculateInfluenceScores (g : Graph) (entities : EntityTable) : List PyDict :=
  (influenceList g entities).mergeSort (fun x y => decide (influenceKey y ≤ influenceKey x))

/-- Edge weight used by `nx.community.modularity` (attribute `'weight'`,
default `1`). -/
def edgeWeight (e : (Val × Val) × PyDict) : ℚ :=
  match e.2.get "weight" with
  | some (.num q) => q
  | _ => 1

/-- `G.degree(weight='weight')`: sum of incident edge weights, self-loops
twice. -/
def weightedDegree (g : Graph) (v : Val) : ℚ :=
  (g.edges.map (fun e =>
    (if e.1.1 = v then edgeWeight e else 0) + (if e.1.2 = v then edgeWeight e else 0))).sum

/-- `nx.community.modularity(G, communities)` at resolution 1:
`Σ_c (L_c / m - (D_c / 2m)²)`. -/
def nxModularity (g : Graph) (comms : List (List Val)) : ℚ :=
  let degSum := (g.nodes.map (weightedDegree g)).sum
  let m := degSum / 2
  let norm := 1 / (degSum * degSum)
  (comms.map (fun comm =>
    let lc := ((g.edges.filter (fun e => comm.contains e.1.1 && comm.contains e.1.2)).map
      edgeWeight).sum
    let dc := (comm.map (weightedDegree g)).sum
    lc / m - dc * dc * norm)).sum

/-- One community record of the formatted output. -/
structure Community where
  id : ℕ
  size : ℕ
  entities : List PyDict
  influence_score : ℚ
deriving DecidableEq

/-- The community structure returned by `_detect_communities`. -/
structure CommunityResult where
  communities : List Community
  modularity : ℚ
  community_count : ℕ
deriving DecidableEq

/-- The formatting loop of `_detect_communities`: members found in the entity
table are kept with their full records, each community gets the mean of its
members' influence scores, ids are `i + 1` over the original enumeration, and
empty communities are skipped. -/
def formatCommunities (g : Graph) (entities : EntityTable) (comms : List (List Val)) :
    List Community :=
  (comms.enum.map (fun p =>
    let members := p.2.filter (fun v => (tableGet entities v).isSome)
    let communityEntities := members.map (fun v => (tableGet entities v).getD [])
    let influence := (members.map (fun v => calculateEntityInfluence g entities v)).sum
    { id := p.1 + 1,
      size := communityEntities.length,
      entities := communityEntities,
      influence_score :=
        if 0 < members.length then influence / (members.length : ℚ) else 0 })).filter
    (fun c => !c.entities.isEmpty)

/-- `PowerMapper._detect_communities`.  The Louvain call
(`nx.community.louvain_communities(graph, seed=42, resolution=1.0)`) is taken
as a parameter: its seeded randomised optimisation is outside the embedding,
and `none` models the `except` branch, which falls back to connected
components with modularity `0.0`.  No claim depends on the partition it
returns on graphs with at least 2 edges. -/
def detectCommunities (louvain : Graph → Option (List (List Val))) (g : Graph)
    (entities : EntityTable) : CommunityResult :=
  if g.nodes.length = 0 ∨ g.edges.length = 0 then
    { communities := [], modularity := 0, community_count := 0 }
  else
    let pair : List (List Val) × ℚ :=
      if g.edges.length < 2 then (g.nodes.map (fun v => [v]), 0)
      else
        match louvain g with
        | some cs => (cs, nxModularity g cs)
        | none => (g.components, 0)
    let detailed := formatCommunities g entities pair.1
    { communities := detailed, modularity := pair.2, community_count := detailed.length }

/-- The `summary` block of the analysis result. -/
structure Summary where
  entity_count : ℕ
  relationship_count : ℕ
  network_density : ℚ
  connected_components : ℕ
deriving DecidableEq

/-- The analysis result of `analyze_network`, restricted to the fields the
claims are about (`structural_analysis` and `key_findings` are descriptive
output never referenced by a claim and are not modelled).  `centrality =
none` is the empty dict. -/
structure AnalysisResult where
  summary : Summary
  centrality : Option CentralityMaps
  communities : CommunityResult
  influence_rankings : List PyDict
deriving DecidableEq

/-- `PowerMapper.analyze_network`: build the graph, then assemble the result.
`entity_count`/`relationship_count` are the raw lengths of the two input
sequences. -/
def analyzeNetwork (louvain : Graph → Option (List (List Val)))
    (entities rels : List PyDict) : AnalysisResult :=
  let built := buildNetwork entities rels
  let g := built.1
  let table := built.2.1
  { summary :=
      { entity_count := entities.length,
        relationship_count := rels.length,
        network_density := g.density,
        connected_components := g.numComponents },
    centrality := calculateCentrality g,
    communities := detectCommunities louvain g table,
    influence_rankings := calculateInfluenceScores g table }

/-! Specification-side definitions (the spec's wording, to be compared with
the embedded code) and concrete instances used in counterexamples and
witnesses. -/

/-- The type multiplier exactly as the specification words it: 1.3 for
government, 1.2 for corporation, 1.1 for person, 1.0 for organization or any
unrecognized/absent type. -/
def specTypeMultiplier (tv : Option Val) : ℚ :=
  match tv with
  | some (.str s) =>
    if s.toLower = "government" then 1.3
    else if s.toLower = "corporation" then 1.2
    else if s.toLower = "person" then 1.1
    else 1.0
  | _ => 1.0

/-- The influence formula exactly as the specification words it:
`min(100, 100 * (0.4 * degree_centrality + 0.6 * betweenness_centrality) *
type_multiplier)`. -/
def specInfluence (dc bw mult : ℚ) : ℚ :=
  min 100 (100 * (0.4 * dc + 0.6 * bw) * mult)

/-- Whether an optional record value is a number. -/
def isNumVal : Option Val → Bool
  | some (.num _) => true
  | _ => false

/-- The first (and, by the uniqueness invariant, only) graph edge joining the
unordered pair `{u, v}`. -/
def findEdge (g : Graph) (u v : Val) : Option ((Val × Val) × PyDict) :=
  g.edges.find? (fun e => pairMatches e.1 (u, v))

/-- Whether a relationship record survives validation in `_build_network`
(both endpoints resolve and the strength passes) and joins the unordered pair
`{u, v}`. -/
def passingFor (table : EntityTable) (u v : Val) (r : PyDict) : Bool :=
  match r.get "source", r.get "target" with
  | some s, some t =>
    (tableGet table s).isSome && (tableGet table t).isSome && passesStrength r &&
      pairMatches (s, t) (u, v)
  | _, _ => false

/-- A Louvain stand-in usable in closed statements; the branches it would
feed are never reached by them. -/
def noLouvainModel : Graph → Option (List (List Val)) := fun _ => none

/-- Two-entity input in which entity 1 carries a numeric `type` value. -/
def numTypeEnts : List PyDict :=
  [[("id", Val.num 1), ("type", Val.num 3)], [("id", Val.num 2)]]

/-- One relationship joining the two entities (default strength 0.5). -/
def numTypeRels : List PyDict :=
  [[("source", Val.num 1), ("target", Val.num 2)]]

/-- The graph built from `numTypeEnts`/`numTypeRels`. -/
def numTypeGraph : Graph := (buildNetwork numTypeEnts numTypeRels).1

/-- The entity table built from `numTypeEnts`/`numTypeRels`. -/
def numTypeTable : EntityTable := (buildNetwork numTypeEnts numTypeRels).2.1

/-- A single entity, for inputs with a dangling relationship. -/
def oneEnt : List PyDict := [[("id", Val.num 1)]]

/-- A relationship whose target id 2 resolves to no entity. -/
def danglingRels : List PyDict := [[("source", Val.num 1), ("target", Val.num 2)]]

/-- A self-referential relationship on entity 1. -/
def selfRels : List PyDict := [[("source", Val.num 1), ("target", Val.num 1)]]

/-- Two id-less entity records with identical names. -/
def acmeEnts : List PyDict := [[("name", Val.str "Acme")], [("name", Val.str "Acme")]]

/-- Two plain entities for duplicate-relationship inputs. -/
def pairEnts : List PyDict := [[("id", Val.num 1)], [("id", Val.num 2)]]

/-- Two relationship records on the same pair: the first carries a `type`
attribute and strength 0.8, the second only strength 0.9. -/
def dupRels : List PyDict :=
  [[("source", Val.num 1), ("target", Val.num 2), ("type", Val.str "x"),
    ("strength", Val.num 0.8)],
   [("source", Val.num 1), ("target", Val.num 2), ("strength", Val.num 0.9)]]

/-- A two-node graph with its single edge, at concrete node ids. -/
def kTwoGraph : Graph :=
  { nodes := [Val.num 0, Val.num 1],
    edges := [((Val.num 0, Val.num 1), [("source", Val.num 0), ("target", Val.num 1)])] }

/-! Helper lemmas. -/

theorem PyDict.get_eq_none_iff (r : PyDict) (k : String) :
    r.get k = none ↔ r.any (fun p => decide (p.1 = k)) = false := by
  induction r with
  | nil => simp [PyDict.get]
  | cons p rest ih =>
    by_cases h : p.1 = k <;> simp [PyDict.get, h, ih]

theorem PyDict.set_eq_append (r : PyDict) (k : String) (v : Val) (h : r.get k = none) :
    r.set k v = r ++ [(k, v)] := by
  rw [PyDict.set, if_neg]
  simp [(PyDict.get_eq_none_iff r k).mp h]

theorem PyDict.get_append_single (r : PyDict) (k : String) (v : Val) (h : r.get k = none) :
    (r ++ [(k, v)]).get k = some v := by
  induction r with
  | nil => simp [PyDict.get]
  | cons p rest ih =>
    by_cases hp : p.1 = k
    · simp [PyDict.get, hp] at h
    · simp only [PyDict.get, hp, if_false, List.cons_append] at h ⊢
      exact ih h

theorem processEntities_get? (ents : List PyDict) (i : ℕ) (r : PyDict)
    (h : ents.get? i = some r) :
    (processEntities ents).get? i = some
      (if (r.get "id").isSome then r
       else r.set "id"
         (.str (slug (pyStr ((r.get "name").getD (.str ("entity_" ++ toString i))))))) := by
  simp only [processEntities, List.get?_map, List.get?_enum, h, Option.map_some']

/-- C4, corrected: an id-less record's synthesized id is the normalized slug
of its name alone — the ordinal position enters only through the fallback
name `entity_{i}` used when the name is absent — so id-less records whose
names have equal slugs receive the same id and collapse, contrary to the
claimed per-run uniqueness. -/
theorem synthesized_id_from_name (ents : List PyDict) (i : ℕ) (r : PyDict) (s : String)
    (hr : ents.get? i = some r) (hid : r.get "id" = none)
    (hname : r.get "name" = some (.str s)) :
    ((processEntities ents).get? i).map (fun r2 => r2.get "id") =
      some (some (.str (slug s))) := by
  rw [processEntities_get? ents i r hr]
  rw [hid]
  simp only [Option.isSome_none, Bool.false_eq_true, if_false, Option.map_some']
  rw [hname]
  simp only [Option.getD_some, pyStr]
  rw [PyDict.set_eq_append r _ _ hid, PyDict.get_append_single r _ _ hid]

/-- Witness for `synthesized_id_from_name`. -/
theorem synthesized_id_from_name_witness :
    ([[("name", Val.str "Acme")]] : List PyDict).get? 0 = some [("name", Val.str "Acme")] ∧
    ((processEntities [[("name", Val.str "Acme")]]).get? 0).map (fun r2 => r2.get "id") =
      some (some (.str (slug "Acme"))) :=
  ⟨rfl, synthesized_id_from_name [[("name", Val.str "Acme")]] 0 [("name", Val.str "Acme")]
    "Acme" rfl rfl rfl⟩

/-- C4 counterexample: the two distinct id-less records of `acmeEnts` (equal
names, positions 0 and 1) receive the same synthesized id `"acme"`, and the
entity table collapses them into a single entry. -/
theorem synthesized_id_collision_counterexample :
    ((processEntities acmeEnts).get? 0).map (fun r => r.get "id") =
        ((processEntities acmeEnts).get? 1).map (fun r => r.get "id") ∧
      ((processEntities acmeEnts).get? 0).map (fun r => r.get "id") =
        some (some (Val.str "acme")) ∧
      (buildTable (processEntities acmeEnts)).length = 1 := by
  with_unfolding_all decide

/-- C9, corrected: the builder does mutate the caller's entity records — a
record lacking `id` gets the synthesized id appended in place.  That is the
only mutation: records that already have an `id` are returned unchanged, and
an id-less record changes only by the appended `id` field (relationship
records are only read). -/
theorem builder_mutation_frame (ents rels : List PyDict) (i : ℕ) (r : PyDict)
    (hr : ents.get? i = some r) :
    ((r.get "id").isSome → ((buildNetwork ents rels).2.2).get? i = some r) ∧
    (r.get "id" = none →
      ∃ v, ((buildNetwork ents rels).2.2).get? i = some (r ++ [("id", v)])) := by
  constructor
  · intro hsome
    show (processEntities ents).get? i = some r
    rw [processEntities_get? ents i r hr, if_pos hsome]
  · intro hnone
    refine ⟨.str (slug (pyStr ((r.get "name").getD (.str ("entity_" ++ toString i))))), ?_⟩
    show (processEntities ents).get? i = some _
    rw [processEntities_get? ents i r hr, hnone]
    simp only [Option.isSome_none, Bool.false_eq_true, if_false]
    rw [PyDict.set_eq_append r _ _ hnone]

/-- Witness for `builder_mutation_frame`. -/
theorem builder_mutation_frame_witness :
    (acmeEnts.get? 0 = some [("name", Val.str "Acme")]) ∧
    PyDict.get [("name", Val.str "Acme")] "id" = none ∧
    ∃ v, ((buildNetwork acmeEnts []).2.2).get? 0 = some ([("name", Val.str "Acme")] ++ [("id", v)]) :=
  ⟨rfl, rfl, (builder_mutation_frame acmeEnts [] 0 [("name", Val.str "Acme")] rfl).2 rfl⟩

/-- C9 counterexample: building from a single id-less record leaves the
caller's record list changed (an `id` field has been added in place). -/
theorem builder_mutation_counterexample :
    (buildNetwork [[("name", Val.str "Acme")]] []).2.2 ≠ [[("name", Val.str "Acme")]] := by
  with_unfolding_all decide

theorem pairMatches_iff (p q : Val × Val) :
    pairMatches p q = true ↔ (p.1 = q.1 ∧ p.2 = q.2) ∨ (p.1 = q.2 ∧ p.2 = q.1) := by
  simp [pairMatches]

theorem foldl_preserve {α β : Type} (f : α → β → α) (P : α → Prop)
    (hstep : ∀ a b, P a → P (f a b)) : ∀ (l : List β) (a : α), P a → P (l.foldl f a)
  | [], _, h => h
  | b :: l, a, h => foldl_preserve f P hstep l (f a b) (hstep a b h)

theorem tableGet_isSome_iff (t : EntityTable) (k : Val) :
    (tableGet t k).isSome = true ↔ k ∈ t.map (fun p => p.1) := by
  induction t with
  | nil => simp [tableGet]
  | cons p rest ih =>
    by_cases h : p.1 = k
    · simp [tableGet, h]
    · simp [tableGet, h, ih, Ne.symm h]

theorem Graph.addEdge_pairs (g : Graph) (u v : Val) (d : PyDict) :
    ∀ e ∈ (g.addEdge u v d).edges, e.1 ∈ g.edges.map (fun e0 => e0.1) ∨ e.1 = (u, v) := by
  intro e he
  unfold Graph.addEdge at he
  by_cases hc : g.edges.any (fun e0 => pairMatches e0.1 (u, v)) = true
  · rw [if_pos hc] at he
    simp only [List.mem_map] at he
    obtain ⟨e0, he0, heq⟩ := he
    left
    have : e.1 = e0.1 := by
      subst heq
      split <;> rfl
    rw [this]
    exact List.mem_map_of_mem _ he0
  · rw [if_neg hc] at he
    rcases List.mem_append.mp he with h | h
    · exact Or.inl (List.mem_map_of_mem _ h)
    · simp only [List.mem_singleton] at h
      subst h
      exact Or.inr rfl

theorem Graph.addEdge_pairs_superset (g : Graph) (u v : Val) (d : PyDict) :
    ∀ e ∈ g.edges, ∃ e2 ∈ (g.addEdge u v d).edges, e2.1 = e.1 := by
  intro e he
  unfold Graph.addEdge
  by_cases hc : g.edges.any (fun e0 => pairMatches e0.1 (u, v)) = true
  · rw [if_pos hc]
    refine ⟨_, List.mem_map_of_mem
      (fun e0 => if pairMatches e0.1 (u, v) then (e0.1, e0.2.update d) else e0) he, ?_⟩
    split <;> rfl
  · rw [if_neg hc]
    exact ⟨e, List.mem_append_left _ he, rfl⟩

theorem Graph.addEdge_nodes_of_mem (g : Graph) (u v : Val) (d : PyDict)
    (hu : u ∈ g.nodes) (hv : v ∈ g.nodes) : (g.addEdge u v d).nodes = g.nodes := by
  unfold Graph.addEdge
  have hcu : g.nodes.contains u = true := by simpa [List.elem_eq_mem] using hu
  rw [hcu]
  simp only [if_true]
  have hcv : g.nodes.contains v = true := by simpa [List.elem_eq_mem] using hv
  rw [hcv]
  simp only [if_true]
  split <;> rfl

/-- Every edge of a builder-produced graph has both endpoints present in the
entity table: the relationship loop only inserts an edge after resolving both
ids, and `add_edge` never changes an edge's endpoint pair. -/
theorem addRelationships_endpoints (table : EntityTable) (rels : List PyDict) (g : Graph)
    (hg : ∀ e ∈ g.edges,
      (tableGet table e.1.1).isSome = true ∧ (tableGet table e.1.2).isSome = true) :
    ∀ e ∈ (addRelationships g table rels).edges,
      (tableGet table e.1.1).isSome = true ∧ (tableGet table e.1.2).isSome = true := by
  refine foldl_preserve (addRelStep table)
    (fun g => ∀ e ∈ g.edges,
      (tableGet table e.1.1).isSome = true ∧ (tableGet table e.1.2).isSome = true)
    ?_ rels g hg
  intro g r hP e he
  rcases hs : r.get "source" with _ | s <;>
    rcases ht : r.get "target" with _ | t <;>
      simp only [addRelStep, hs, ht] at he
  · exact hP e he
  · exact hP e he
  · exact hP e he
  · by_cases hres : (tableGet table s).isSome = true ∧ (tableGet table t).isSome = true
    · rw [if_pos hres] at he
      by_cases hpass : passesStrength r = true
      · rw [if_pos hpass] at he
        rcases g.addEdge_pairs s t r e he with hold | hnew
        · simp only [List.mem_map] at hold
          obtain ⟨e0, he0, heq⟩ := hold
          exact heq ▸ hP e0 he0
        · rw [hnew]
          exact hres
      · rw [if_neg hpass] at he
        exact hP e he
    · rw [if_neg hres] at he
      exact hP e he

/-- The builder's graph keeps exactly the entity-table keys as its node list:
the initial nodes are the table keys and `add_edge` is only reached with
already-present endpoints. -/
theorem buildNetwork_nodes (ents rels : List PyDict) :
    (buildNetwork ents rels).1.nodes =
      ((buildNetwork ents rels).2.1).map (fun p => p.1) := by
  show (addRelationships _ _ rels).nodes = _
  refine foldl_preserve (addRelStep (buildTable (processEntities ents)))
    (fun g => g.nodes = (buildTable (processEntities ents)).map (fun p => p.1)) ?_ rels _ rfl
  intro g r hP
  rcases hs : r.get "source" with _ | s <;>
    rcases ht : r.get "target" with _ | t <;>
      simp only [addRelStep, hs, ht]
  · exact hP
  · exact hP
  · exact hP
  · by_cases hres : (tableGet (buildTable (processEntities ents)) s).isSome = true ∧
      (tableGet (buildTable (processEntities ents)) t).isSome = true
    · rw [if_pos hres]
      by_cases hpass : passesStrength r = true
      · rw [if_pos hpass]
        rw [Graph.addEdge_nodes_of_mem g s t r
          (hP ▸ (tableGet_isSome_iff _ s).mp hres.1)
          (hP ▸ (tableGet_isSome_iff _ t).mp hres.2)]
        exact hP
      · rw [if_neg hpass]; exact hP
    · rw [if_neg hres]; exact hP

/-- C2, corrected: a relationship whose `target` (or `source`) does not
resolve never produces a graph edge, but `summary.relationship_count` is the
raw length of the input relationship list, dangling records included — they
are not excluded from the count. -/
theorem relationship_count_and_dangling (louvain : Graph → Option (List (List Val)))
    (ents rels : List PyDict) :
    (analyzeNetwork louvain ents rels).summary.relationship_count = rels.length ∧
    ∀ v, tableGet (buildNetwork ents rels).2.1 v = none →
      ∀ e ∈ (buildNetwork ents rels).1.edges, e.1.1 ≠ v ∧ e.1.2 ≠ v := by
  refine ⟨rfl, ?_⟩
  intro v hv e he
  have hend := addRelationships_endpoints (buildTable (processEntities ents)) rels
    { nodes := (buildTable (processEntities ents)).map (fun p => p.1), edges := [] }
    (by intro e h; cases h) e he
  constructor
  · intro hcontra
    rw [hcontra] at hend
    rw [show tableGet (buildNetwork ents rels).2.1 v = tableGet (buildTable (processEntities ents)) v from rfl] at hv
    rw [hv] at hend
    cases hend.1
  · intro hcontra
    rw [hcontra] at hend
    rw [show tableGet (buildNetwork ents rels).2.1 v = tableGet (buildTable (processEntities ents)) v from rfl] at hv
    rw [hv] at hend
    cases hend.2

/-- Witness for `relationship_count_and_dangling`. -/
theorem relationship_count_and_dangling_witness :
    tableGet (buildNetwork oneEnt danglingRels).2.1 (Val.num 2) = none ∧
    ∀ e ∈ (buildNetwork oneEnt danglingRels).1.edges,
      e.1.1 ≠ Val.num 2 ∧ e.1.2 ≠ Val.num 2 :=
  ⟨by with_unfolding_all decide,
   (relationship_count_and_dangling noLouvainModel oneEnt danglingRels).2 (Val.num 2)
     (by with_unfolding_all decide)⟩

/-- C2 counterexample: with one entity and one dangling relationship, no edge
is built, yet `relationship_count` reports `1`, not `0` — the dangling record
is counted. -/
theorem dangling_count_counterexample :
    (analyzeNetwork noLouvainModel oneEnt danglingRels).summary.relationship_count = 1 ∧
    (buildNetwork oneEnt danglingRels).1.edges = [] := by
  with_unfolding_all decide

theorem Graph.addEdge_self_pair (g : Graph) (v : Val) (d : PyDict) :
    ∃ e ∈ (g.addEdge v v d).edges, e.1 = (v, v) := by
  unfold Graph.addEdge
  by_cases hc : g.edges.any (fun e0 => pairMatches e0.1 (v, v)) = true
  · rw [if_pos hc]
    obtain ⟨e0, he0, hm⟩ := List.any_eq_true.mp hc
    have he01 : e0.1 = (v, v) := by
      rcases (pairMatches_iff e0.1 (v, v)).mp hm with ⟨h1, h2⟩ | ⟨h1, h2⟩ <;>
        exact Prod.ext h1 h2
    refine ⟨_, List.mem_map_of_mem _ he0, ?_⟩
    split <;> exact he01
  · rw [if_neg hc]
    exact ⟨((v, v), PyDict.update [] d),
      List.mem_append_right _ (List.mem_singleton_self _), rfl⟩

theorem addRelStep_pair_superset (table : EntityTable) (p : Val × Val) (g : Graph)
    (r : PyDict) (h : ∃ e ∈ g.edges, e.1 = p) :
    ∃ e ∈ (addRelStep table g r).edges, e.1 = p := by
  obtain ⟨e, he, hep⟩ := h
  rcases hs : r.get "source" with _ | s <;>
    rcases ht : r.get "target" with _ | t <;>
      simp only [addRelStep, hs, ht]
  · exact ⟨e, he, hep⟩
  · exact ⟨e, he, hep⟩
  · exact ⟨e, he, hep⟩
  · split_ifs with h1 h2
    · obtain ⟨e2, he2, h21⟩ := g.addEdge_pairs_superset s t r e he
      exact ⟨e2, he2, h21.trans hep⟩
    · exact ⟨e, he, hep⟩
    · exact ⟨e, he, hep⟩

theorem addRelationships_self_pair (table : EntityTable) (rels : List PyDict) (g : Graph)
    (r : PyDict) (hr : r ∈ rels) (v : Val)
    (hs : r.get "source" = some v) (ht : r.get "target" = some v)
    (hres : (tableGet table v).isSome = true) (hpass : passesStrength r = true) :
    ∃ e ∈ (addRelationships g table rels).edges, e.1 = (v, v) := by
  obtain ⟨l1, l2, rfl⟩ := List.append_of_mem hr
  rw [addRelationships, List.foldl_append, List.foldl_cons]
  refine foldl_preserve (addRelStep table) (fun g2 => ∃ e ∈ g2.edges, e.1 = (v, v))
    (fun g2 r2 => addRelStep_pair_superset table (v, v) g2 r2) l2 _ ?_
  show ∃ e ∈ (addRelStep table _ r).edges, e.1 = (v, v)
  simp only [addRelStep, hs, ht, if_pos (And.intro hres hres), if_pos hpass]
  exact Graph.addEdge_self_pair _ v r

/-- C3, corrected: every edge endpoint of a builder-made graph is a node, but
self-referential relationship records are NOT dropped — the builder has no
`source == target` check, so a self-referential record whose id resolves and
whose strength passes the threshold becomes a self-loop edge. -/
theorem edge_endpoints_and_self_loops (ents rels : List PyDict) :
    (∀ e ∈ (buildNetwork ents rels).1.edges,
      e.1.1 ∈ (buildNetwork ents rels).1.nodes ∧
        e.1.2 ∈ (buildNetwork ents rels).1.nodes) ∧
    (∀ r ∈ rels, ∀ v, r.get "source" = some v → r.get "target" = some v →
      (tableGet (buildNetwork ents rels).2.1 v).isSome = true → passesStrength r = true →
      ∃ e ∈ (buildNetwork ents rels).1.edges, e.1 = (v, v)) := by
  constructor
  · intro e he
    have hend := addRelationships_endpoints (buildTable (processEntities ents)) rels
      { nodes := (buildTable (processEntities ents)).map (fun p => p.1), edges := [] }
      (by intro e h; cases h) e he
    rw [buildNetwork_nodes]
    exact ⟨(tableGet_isSome_iff _ _).mp hend.1, (tableGet_isSome_iff _ _).mp hend.2⟩
  · intro r hr v hs ht hres hpass
    exact addRelationships_self_pair (buildTable (processEntities ents)) rels
      { nodes := (buildTable (processEntities ents)).map (fun p => p.1), edges := [] }
      r hr v hs ht hres hpass

/-- Witness for `edge_endpoints_and_self_loops`. -/
theorem edge_endpoints_and_self_loops_witness :
    (tableGet (buildNetwork oneEnt selfRels).2.1 (Val.num 1)).isSome = true ∧
    passesStrength [("source", Val.num 1), ("target", Val.num 1)] = true ∧
    ∃ e ∈ (buildNetwork oneEnt selfRels).1.edges, e.1 = (Val.num 1, Val.num 1) :=
  ⟨by with_unfolding_all decide, by with_unfolding_all decide,
   (edge_endpoints_and_self_loops oneEnt selfRels).2
     [("source", Val.num 1), ("target", Val.num 1)] (List.mem_singleton_self _)
     (Val.num 1) rfl rfl (by with_unfolding_all decide) (by with_unfolding_all decide)⟩

/-- C3 counterexample: a self-referential relationship record on a resolved
entity id produces a self-loop edge — it is not dropped. -/
theorem self_loop_counterexample :
    (buildNetwork oneEnt selfRels).1.edges =
      [((Val.num 1, Val.num 1), [("source", Val.num 1), ("target", Val.num 1)])] := by
  with_unfolding_all decide

/-- C5, confirmed: analysing empty entity and relationship sequences returns
zero counts, the empty centrality dict, an empty community structure and
empty influence rankings.  No exception can occur: the embedded pipeline is a
total function and every guard takes its degenerate branch. -/
theorem empty_input_analysis (louvain : Graph → Option (List (List Val))) :
    analyzeNetwork louvain [] [] =
      { summary := { entity_count := 0, relationship_count := 0, network_density := 0,
                     connected_components := 0 },
        centrality := none,
        communities := { communities := [], modularity := 0, community_count := 0 },
        influence_rankings := [] } := by
  with_unfolding_all rfl

theorem typeMultiplier_eq_chain (t : String) :
    typeMultiplier t =
      (if t = "government" then (1.3 : ℚ)
       else if t = "corporation" then 1.2
       else if t = "person" then 1.1
       else 1.0) := by
  by_cases h1 : t = "government"
  · rw [h1]; with_unfolding_all decide
  by_cases h2 : t = "corporation"
  · rw [h2]; with_unfolding_all decide
  by_cases h3 : t = "person"
  · rw [h3]; with_unfolding_all decide
  by_cases h4 : t = "organization"
  · rw [h4]; with_unfolding_all decide
  · unfold typeMultiplier
    rw [if_neg h2, if_neg h1, if_neg h3, if_neg h4, if_neg h1, if_neg h2, if_neg h3]

theorem specInfluence_eq_min (c b m : ℚ) :
    min ((c * 0.4 + b * 0.6) * 100 * m) 100 = specInfluence c b m := by
  unfold specInfluence
  rw [min_comm]
  congr 1
  ring

/-- C1, corrected: for an entity of the built graph whose `type` field is
absent or a string, the influence score is exactly the specified
`min(100, 100*(0.4*degree + 0.6*betweenness) * type_multiplier)` with the
specified multiplier table, and an id absent from the graph scores 0; but an
entity whose `type` value is present and not a string scores 0 (the `except`
path) instead of using multiplier 1.0. -/
theorem influence_score_formula (g : Graph) (table : EntityTable) (entityId : Val)
    (ent : PyDict) (h1 : tableGet table entityId = some ent)
    (h2 : isNumVal (PyDict.get ent "type") = false) :
    calculateEntityInfluence g table entityId =
      if entityId ∈ g.nodes then
        specInfluence ((alookup (degreeCentrality g) entityId).getD 0)
          ((alookup (betweennessCentrality g) entityId).getD 0)
          (specTypeMultiplier (PyDict.get ent "type"))
      else 0 := by
  by_cases hm : entityId ∈ g.nodes
  · have hc : g.nodes.contains entityId = true := by
      simpa [List.elem_eq_mem] using hm
    rw [if_pos hm]
    unfold calculateEntityInfluence
    rw [hc]
    simp only [if_true, h1]
    rcases htv : PyDict.get ent "type" with _ | v
    · simp only [specTypeMultiplier]
      rw [show typeMultiplier "" = 1 by with_unfolding_all decide] at *
      rw [← specInfluence_eq_min]
      norm_num
    · rcases v with s | q
      · simp only [specTypeMultiplier, ← typeMultiplier_eq_chain]
        rw [← specInfluence_eq_min]
      · rw [htv] at h2
        simp [isNumVal] at h2
  · have hc : g.nodes.contains entityId = false := by
      simp [List.elem_eq_mem, hm]
    rw [if_neg hm]
    unfold calculateEntityInfluence
    rw [hc]
    simp

/-- Witness for `influence_score_formula` (entity 2 has no `type` field). -/
theorem influence_score_formula_witness :
    tableGet numTypeTable (Val.num 2) = some [("id", Val.num 2)] ∧
    isNumVal (PyDict.get [("id", Val.num 2)] "type") = false ∧
    calculateEntityInfluence numTypeGraph numTypeTable (Val.num 2) =
      if Val.num 2 ∈ numTypeGraph.nodes then
        specInfluence ((alookup (degreeCentrality numTypeGraph) (Val.num 2)).getD 0)
          ((alookup (betweennessCentrality numTypeGraph) (Val.num 2)).getD 0)
          (specTypeMultiplier (PyDict.get [("id", Val.num 2)] "type"))
      else 0 :=
  ⟨by with_unfolding_all decide, by with_unfolding_all decide,
   influence_score_formula numTypeGraph numTypeTable (Val.num 2) [("id", Val.num 2)]
     (by with_unfolding_all decide) (by with_unfolding_all decide)⟩

/-- C1 counterexample: entity 1 of `numTypeEnts` is in the built graph and
its `type` is the number 3 — an unrecognized type, so the claim prescribes
multiplier 1.0 and influence 40 (degree centrality 1, betweenness 0); the
code returns 0 through the exception fallback. -/
theorem influence_formula_counterexample :
    Val.num 1 ∈ numTypeGraph.nodes ∧
    calculateEntityInfluence numTypeGraph numTypeTable (Val.num 1) = 0 ∧
    specInfluence ((alookup (degreeCentrality numTypeGraph) (Val.num 1)).getD 0)
      ((alookup (betweennessCentrality numTypeGraph) (Val.num 1)).getD 0)
      (specTypeMultiplier (PyDict.get [("id", Val.num 1), ("type", Val.num 3)] "type")) =
        40 := by
  with_unfolding_all decide

/-- C7, confirmed: `influence_rankings` is sorted non-increasing by
`influence_score`, and entries with equal scores keep the relative order of
the pre-sort influence list — which enumerates graph nodes in entity-table
insertion order, i.e. first occurrence in the input (`buildNetwork_nodes`).
The second conjunct is the standard filter characterisation of stability. -/
theorem influence_rankings_sorted_stable (louvain : Graph → Option (List (List Val)))
    (ents rels : List PyDict) :
    ((analyzeNetwork louvain ents rels).influence_rankings).Pairwise
      (fun x y => influenceKey y ≤ influenceKey x) ∧
    ∀ c : ℚ,
      ((analyzeNetwork louvain ents rels).influence_rankings).filter
          (fun r => decide (influenceKey r = c)) =
        (influenceList (buildNetwork ents rels).1 (buildNetwork ents rels).2.1).filter
          (fun r => decide (influenceKey r = c)) := by
  have htrans : ∀ (a b c : PyDict),
      decide (influenceKey b ≤ influenceKey a) = true →
      decide (influenceKey c ≤ influenceKey b) = true →
      decide (influenceKey c ≤ influenceKey a) = true := by
    intro a b c hab hbc
    exact decide_eq_true (le_trans (of_decide_eq_true hbc) (of_decide_eq_true hab))
  have htotal : ∀ (a b : PyDict),
      (decide (influenceKey b ≤ influenceKey a) ||
        decide (influenceKey a ≤ influenceKey b)) = true := by
    intro a b
    rcases le_total (influenceKey b) (influenceKey a) with h | h
    · simp [h]
    · simp [h]
  constructor
  · have hs := @List.sorted_mergeSort PyDict
      (fun x y => decide (influenceKey y ≤ influenceKey x)) htrans htotal
      (influenceList (buildNetwork ents rels).1 (buildNetwork ents rels).2.1)
    exact hs.imp (fun h => of_decide_eq_true h)
  · intro c
    have hmem : ∀ r ∈ (influenceList (buildNetwork ents rels).1
        (buildNetwork ents rels).2.1).filter (fun r => decide (influenceKey r = c)),
        influenceKey r = c := by
      intro r hr
      exact of_decide_eq_true (List.mem_filter.mp hr).2
    have hPW : ((influenceList (buildNetwork ents rels).1
        (buildNetwork ents rels).2.1).filter (fun r => decide (influenceKey r = c))).Pairwise
        (fun x y => decide (influenceKey y ≤ influenceKey x) = true) := by
      apply List.pairwise_of_forall_mem_list
      intro x hx y hy
      rw [hmem x hx, hmem y hy]
      simp
    have h1 : List.Sublist
        ((influenceList (buildNetwork ents rels).1
          (buildNetwork ents rels).2.1).filter (fun r => decide (influenceKey r = c)))
        ((influenceList (buildNetwork ents rels).1
          (buildNetwork ents rels).2.1).mergeSort
            (fun x y => decide (influenceKey y ≤ influenceKey x))) :=
      List.sublist_mergeSort htrans htotal hPW (List.filter_sublist _)
    have h2 : (((influenceList (buildNetwork ents rels).1
        (buildNetwork ents rels).2.1).filter (fun r => decide (influenceKey r = c))).filter
          (fun r => decide (influenceKey r = c))) =
        ((influenceList (buildNetwork ents rels).1
          (buildNetwork ents rels).2.1).filter (fun r => decide (influenceKey r = c))) :=
      List.filter_eq_self.mpr (fun r hr => (List.mem_filter.mp hr).2)
    have h3 : List.Sublist
        ((influenceList (buildNetwork ents rels).1
          (buildNetwork ents rels).2.1).filter (fun r => decide (influenceKey r = c)))
        (((influenceList (buildNetwork ents rels).1
          (buildNetwork ents rels).2.1).mergeSort
            (fun x y => decide (influenceKey y ≤ influenceKey x))).filter
          (fun r => decide (influenceKey r = c))) := by
      rw [← h2]
      exact h1.filter _
    have h4 : ((((influenceList (buildNetwork ents rels).1
        (buildNetwork ents rels).2.1).mergeSort
          (fun x y => decide (influenceKey y ≤ influenceKey x))).filter
        (fun r => decide (influenceKey r = c))).length) =
        (((influenceList (buildNetwork ents rels).1
          (buildNetwork ents rels).2.1).filter (fun r => decide (influenceKey r = c))).length) :=
      ((List.mergeSort_perm _ _).filter _).length_eq
    exact (h3.eq_of_length h4.symm).symm

theorem enum_map_snd_comp {α β : Type} (l : List α) (f : α → β) :
    l.enum.map (fun p => f p.2) = l.map f := by
  conv_rhs => rw [← List.enum_map_snd l]
  rw [List.map_map]
  rfl

theorem buildNetwork_node_in_table (ents rels : List PyDict) :
    ∀ v ∈ (buildNetwork ents rels).1.nodes,
      (tableGet (buildNetwork ents rels).2.1 v).isSome = true := by
  intro v hv
  rw [buildNetwork_nodes] at hv
  exact (tableGet_isSome_iff _ v).mpr hv

/-- The formatting loop on the trivial singleton partition: every node is in
the table, so each singleton community survives with that node's record. -/
theorem formatCommunities_singletons_aux (g : Graph) (table : EntityTable) :
    ∀ (vs : List Val) (n : ℕ), (∀ v ∈ vs, (tableGet table v).isSome = true) →
      (((vs.map (fun v => [v])).enumFrom n).map (fun p =>
        let members := p.2.filter (fun v => (tableGet table v).isSome)
        let communityEntities := members.map (fun v => (tableGet table v).getD [])
        let influence := (members.map (fun v => calculateEntityInfluence g table v)).sum
        ({ id := p.1 + 1,
           size := communityEntities.length,
           entities := communityEntities,
           influence_score :=
             if 0 < members.length then influence / (members.length : ℚ)
             else 0 } : Community))).filter (fun c => !c.entities.isEmpty) =
      (vs.enumFrom n).map (fun p =>
        { id := p.1 + 1, size := 1, entities := [(tableGet table p.2).getD []],
          influence_score := calculateEntityInfluence g table p.2 }) := by
  intro vs
  induction vs with
  | nil => intro n h; rfl
  | cons v rest ih =>
    intro n h
    have hv : (tableGet table v).isSome = true := h v (List.mem_cons_self v rest)
    simp only [List.map_cons, List.enumFrom_cons, List.filter_cons, hv, List.filter_nil]
    rw [ih (n + 1) (fun u hu => h u (List.mem_cons_of_mem v hu))]
    simp [hv, div_one]

/-- C8, confirmed: with zero edges the community result is empty with
modularity 0 and count 0; with exactly one edge every node becomes its own
singleton community (carrying its table record), modularity 0 and the count
is the node count. -/
theorem community_triviality_below_two_edges (louvain : Graph → Option (List (List Val)))
    (ents rels : List PyDict) :
    ((buildNetwork ents rels).1.edges.length = 0 →
      (analyzeNetwork louvain ents rels).communities =
        { communities := [], modularity := 0, community_count := 0 }) ∧
    ((buildNetwork ents rels).1.edges.length = 1 →
      (analyzeNetwork louvain ents rels).communities.modularity = 0 ∧
      ((analyzeNetwork louvain ents rels).communities.communities.map
          (fun c => c.entities)) =
        (buildNetwork ents rels).1.nodes.map
          (fun v => [(tableGet (buildNetwork ents rels).2.1 v).getD []]) ∧
      (analyzeNetwork louvain ents rels).communities.community_count =
        (buildNetwork ents rels).1.nodes.length ∧
      ∀ c ∈ (analyzeNetwork louvain ents rels).communities.communities, c.size = 1) := by
  constructor
  · intro h0
    show detectCommunities louvain (buildNetwork ents rels).1 (buildNetwork ents rels).2.1 = _
    unfold detectCommunities
    rw [if_pos (Or.inr h0)]
  · intro h1
    have hnodes : ¬((buildNetwork ents rels).1.nodes.length = 0 ∨
        (buildNetwork ents rels).1.edges.length = 0) := by
      rintro (hn | he)
      · obtain ⟨e, he⟩ : ∃ e, e ∈ (buildNetwork ents rels).1.edges := by
          rcases hedges : (buildNetwork ents rels).1.edges with _ | ⟨e, es⟩
          · rw [hedges] at h1; cases h1
          · exact ⟨e, hedges ▸ List.mem_cons_self e es⟩
        have hend := addRelationships_endpoints (buildTable (processEntities ents)) rels
          { nodes := (buildTable (processEntities ents)).map (fun p => p.1), edges := [] }
          (by intro e h; cases h) e he
        have hmem : e.1.1 ∈ (buildNetwork ents rels).1.nodes := by
          rw [buildNetwork_nodes]
          exact (tableGet_isSome_iff _ _).mp hend.1
        rw [List.length_eq_zero] at hn
        rw [hn] at hmem
        cases hmem
      · rw [h1] at he; cases he
    have hformat := formatCommunities_singletons_aux (buildNetwork ents rels).1
      (buildNetwork ents rels).2.1 (buildNetwork ents rels).1.nodes 0
      (buildNetwork_node_in_table ents rels)
    have hdet : detectCommunities louvain (buildNetwork ents rels).1
        (buildNetwork ents rels).2.1 =
        { communities := ((buildNetwork ents rels).1.nodes.enum.map (fun p =>
            ({ id := p.1 + 1, size := 1,
               entities := [(tableGet (buildNetwork ents rels).2.1 p.2).getD []],
               influence_score := calculateEntityInfluence (buildNetwork ents rels).1
                 (buildNetwork ents rels).2.1 p.2 } : Community))),
          modularity := 0,
          community_count := ((buildNetwork ents rels).1.nodes.enum.map (fun p =>
            ({ id := p.1 + 1, size := 1,
               entities := [(tableGet (buildNetwork ents rels).2.1 p.2).getD []],
               influence_score := calculateEntityInfluence (buildNetwork ents rels).1
                 (buildNetwork ents rels).2.1 p.2 } : Community))).length } := by
      unfold detectCommunities
      rw [if_neg hnodes, if_pos (by rw [h1]; exact Nat.one_lt_two)]
      unfold formatCommunities
      dsimp only [List.enum]
      rw [hformat]
    show (detectCommunities louvain (buildNetwork ents rels).1
        (buildNetwork ents rels).2.1).modularity = 0 ∧
      ((detectCommunities louvain (buildNetwork ents rels).1
          (buildNetwork ents rels).2.1).communities.map (fun c => c.entities)) =
        (buildNetwork ents rels).1.nodes.map
          (fun v => [(tableGet (buildNetwork ents rels).2.1 v).getD []]) ∧
      (detectCommunities louvain (buildNetwork ents rels).1
          (buildNetwork ents rels).2.1).community_count =
        (buildNetwork ents rels).1.nodes.length ∧
      ∀ c ∈ (detectCommunities louvain (buildNetwork ents rels).1
        (buildNetwork ents rels).2.1).communities, c.size = 1
    rw [hdet]
    refine ⟨rfl, ?_, ?_, ?_⟩
    · rw [List.map_map]
      exact enum_map_snd_comp (buildNetwork ents rels).1.nodes
        (fun v => [(tableGet (buildNetwork ents rels).2.1 v).getD []])
    · simp
    · intro c hc
      simp only [List.mem_map] at hc
      obtain ⟨p, _, hp⟩ := hc
      rw [← hp]

/-- Witness for `community_triviality_below_two_edges` (both branches: a
zero-edge input and a one-edge input). -/
theorem community_triviality_witness :
    (buildNetwork pairEnts []).1.edges.length = 0 ∧
    (analyzeNetwork noLouvainModel pairEnts []).communities =
      { communities := [], modularity := 0, community_count := 0 } ∧
    (buildNetwork pairEnts dupRels).1.edges.length = 1 ∧
    (analyzeNetwork noLouvainModel pairEnts dupRels).communities.modularity = 0 :=
  ⟨by with_unfolding_all decide,
   (community_triviality_below_two_edges noLouvainModel pairEnts []).1
     (by with_unfolding_all decide),
   by with_unfolding_all decide,
   ((community_triviality_below_two_edges noLouvainModel pairEnts dupRels).2
     (by with_unfolding_all decide)).1⟩

theorem find?_map_pres {α : Type} (f : α → α) (p : α → Bool)
    (hp : ∀ a, p (f a) = p a) : ∀ l : List α, (l.map f).find? p = (l.find? p).map f := by
  intro l
  induction l with
  | nil => rfl
  | cons a l ih =>
    rcases ha : p a with _ | _
    · rw [List.map_cons, List.find?_cons_of_neg _ (by rw [hp a, ha]; exact Bool.false_ne_true),
        List.find?_cons_of_neg _ (by rw [ha]; exact Bool.false_ne_true), ih]
    · rw [List.map_cons, List.find?_cons_of_pos _ (by rw [hp a]; exact ha),
        List.find?_cons_of_pos _ ha, Option.map_some']

theorem pairMatches_swap (p : Val × Val) (u v : Val) :
    pairMatches p (u, v) = pairMatches p (v, u) := by
  unfold pairMatches
  rw [decide_eq_decide]
  exact or_comm

/-- If `{s, t} = {u, v}` as unordered pairs, matching either is the same. -/
theorem pairMatches_transfer {s t u v : Val} (h : pairMatches (s, t) (u, v) = true)
    (p : Val × Val) : pairMatches p (u, v) = pairMatches p (s, t) := by
  rcases (pairMatches_iff (s, t) (u, v)).mp h with ⟨h1, h2⟩ | ⟨h1, h2⟩
  · simp only at h1 h2
    rw [← h1, ← h2]
  · simp only at h1 h2
    rw [← h1, ← h2, pairMatches_swap]

/-- Two unordered pairs that share a matching endpoint pair are equal as
unordered pairs. -/
theorem pairMatches_both {s t u v : Val} (e : Val × Val)
    (he : pairMatches e (s, t) = true) (huv : pairMatches e (u, v) = true) :
    pairMatches (s, t) (u, v) = true := by
  apply (pairMatches_iff _ _).mpr
  rcases (pairMatches_iff _ _).mp he with ⟨h1, h2⟩ | ⟨h1, h2⟩ <;>
    rcases (pairMatches_iff _ _).mp huv with ⟨h3, h4⟩ | ⟨h3, h4⟩
  · exact Or.inl ⟨h1.symm.trans h3, h2.symm.trans h4⟩
  · exact Or.inr ⟨h1.symm.trans h3, h2.symm.trans h4⟩
  · exact Or.inr ⟨h2.symm.trans h4, h1.symm.trans h3⟩
  · exact Or.inl ⟨h2.symm.trans h4, h1.symm.trans h3⟩

/-- Inserting an edge on a different unordered pair changes neither the
matching-edge list nor the found edge for `{u, v}`. -/
theorem Graph.addEdge_other (g : Graph) (s t u v : Val) (r : PyDict)
    (h : pairMatches (s, t) (u, v) = false) :
    findEdge (g.addEdge s t r) u v = findEdge g u v ∧
    (g.addEdge s t r).edges.filter (fun e => pairMatches e.1 (u, v)) =
      g.edges.filter (fun e => pairMatches e.1 (u, v)) := by
  have htrans : ∀ e : (Val × Val) × PyDict,
      pairMatches e.1 (s, t) = true → pairMatches e.1 (u, v) = false := by
    intro e he
    rcases huv : pairMatches e.1 (u, v) with _ | _
    · rfl
    · rw [pairMatches_both e.1 he huv] at h
      cases h
  have hfix : ∀ e : (Val × Val) × PyDict,
      pairMatches e.1 (u, v) = true →
      (if pairMatches e.1 (s, t) then (e.1, e.2.update r) else e) = e := by
    intro e he
    have hst : pairMatches e.1 (s, t) = false := by
      rcases hst : pairMatches e.1 (s, t) with _ | _
      · rfl
      · rw [htrans e hst] at he
        cases he
    rw [hst]
    simp
  have hp : ∀ e : (Val × Val) × PyDict,
      pairMatches ((if pairMatches e.1 (s, t) then (e.1, e.2.update r) else e).1) (u, v) =
        pairMatches e.1 (u, v) := by
    intro e
    split <;> rfl
  unfold Graph.addEdge
  by_cases hc : g.edges.any (fun e0 => pairMatches e0.1 (s, t)) = true
  · rw [if_pos hc]
    constructor
    · show ((g.edges.map _).find? _) = g.edges.find? (fun e => pairMatches e.1 (u, v))
      rw [find?_map_pres _ _ hp g.edges]
      rcases hf : g.edges.find? (fun e => pairMatches e.1 (u, v)) with _ | e0
      · rw [hf, Option.map_none']
      · have hpe0 := (List.find?_eq_some.mp hf).1
        rw [hf, Option.map_some', hfix e0 hpe0]
    · show (g.edges.map _).filter _ = _
      rw [List.filter_map]
      simp only [Function.comp_def]
      rw [List.filter_congr (fun e _ => hp e)]
      have hall : ∀ e ∈ g.edges.filter (fun e0 => pairMatches e0.1 (u, v)),
          (fun e0 => if pairMatches e0.1 (s, t) then (e0.1, e0.2.update r) else e0) e =
            id e := by
        intro e he
        exact hfix e (List.mem_filter.mp he).2
      rw [List.map_congr_left hall, List.map_id]
  · rw [if_neg hc]
    have hnew : pairMatches ((s, t), PyDict.update [] r).1 (u, v) = false := h
    constructor
    · show (g.edges ++ _).find? _ = g.edges.find? (fun e => pairMatches e.1 (u, v))
      rw [List.find?_append]
      rw [List.find?_cons_of_neg _ (by rw [hnew]; exact Bool.false_ne_true),
        List.find?_nil, Option.or_none]
    · rw [List.filter_append]
      rw [List.filter_cons_of_neg (by rw [hnew]; exact Bool.false_ne_true),
        List.filter_nil, List.append_nil]

/-- Inserting a relationship on the pair `{u, v}` merges its record into the
(unique) existing edge via `dict.update`, or appends a fresh edge whose
attribute dict is the record's items assigned into an empty dict. -/
theorem Graph.addEdge_match (g : Graph) (s t u v : Val) (r : PyDict)
    (h : pairMatches (s, t) (u, v) = true)
    (huniq : (g.edges.filter (fun e => pairMatches e.1 (u, v))).length ≤ 1) :
    ((g.addEdge s t r).edges.filter (fun e => pairMatches e.1 (u, v))).length ≤ 1 ∧
    (findEdge (g.addEdge s t r) u v).map (fun e => e.2) =
      some (PyDict.update (((findEdge g u v).map (fun e => e.2)).getD []) r) := by
  have hequiv : ∀ e : (Val × Val) × PyDict,
      pairMatches e.1 (u, v) = pairMatches e.1 (s, t) :=
    fun e => pairMatches_transfer h e.1
  have hp : ∀ e : (Val × Val) × PyDict,
      pairMatches ((if pairMatches e.1 (s, t) then (e.1, e.2.update r) else e).1) (u, v) =
        pairMatches e.1 (u, v) := by
    intro e
    split <;> rfl
  unfold Graph.addEdge
  by_cases hc : g.edges.any (fun e0 => pairMatches e0.1 (s, t)) = true
  · rw [if_pos hc]
    constructor
    · show ((g.edges.map _).filter _).length ≤ 1
      rw [List.filter_map]
      simp only [Function.comp_def]
      rw [List.filter_congr (fun e _ => hp e), List.length_map]
      exact huniq
    · show ((g.edges.map _).find? _).map _ = _
      rw [find?_map_pres _ _ hp]
      obtain ⟨e0, he0, hm0⟩ := List.any_eq_true.mp hc
      have hm0' : pairMatches e0.1 (u, v) = true := by rw [hequiv e0]; exact hm0
      rcases hf : g.edges.find? (fun e => pairMatches e.1 (u, v)) with _ | e1
      · exfalso
        rw [List.find?_eq_none] at hf
        exact absurd hm0' (hf e0 he0)
      · have hm1 : pairMatches e1.1 (u, v) = true := (List.find?_eq_some.mp hf).1
        have hm1' : pairMatches e1.1 (s, t) = true := by rw [← hequiv e1]; exact hm1
        rw [hf, show findEdge g u v = some e1 from hf]
        simp only [Option.map_some', Option.getD_some]
        rw [if_pos hm1']
  · rw [if_neg hc]
    have hnone : ∀ e ∈ g.edges, ¬ pairMatches e.1 (u, v) = true := by
      intro e he hcon
      rw [hequiv e] at hcon
      exact absurd (List.any_eq_true.mpr ⟨e, he, hcon⟩) hc
    have hnewm : (fun e : (Val × Val) × PyDict => pairMatches e.1 (u, v))
        ((s, t), PyDict.update [] r) = true := h
    constructor
    · rw [List.filter_append,
        List.filter_eq_nil.mpr hnone,
        @List.filter_cons_of_pos _ (fun e => pairMatches e.1 (u, v))
          ((s, t), PyDict.update [] r) [] hnewm,
        List.filter_nil, List.nil_append]
      exact Nat.le_refl 1
    · show ((g.edges ++ _).find? _).map _ = _
      rw [List.find?_append, List.find?_eq_none.mpr hnone,
        @List.find?_cons_of_pos _ (fun e => pairMatches e.1 (u, v))
          ((s, t), PyDict.update [] r) [] hnewm]
      rw [show (findEdge g u v) = none from List.find?_eq_none.mpr hnone]
      rfl

/-- One relationship-loop step acts on the `{u, v}` edge data exactly when
the record passes validation for that pair, merging it via `dict.update`. -/
theorem addRelStep_edge_data (table : EntityTable) (u v : Val) (g : Graph) (r : PyDict)
    (huniq : (g.edges.filter (fun e => pairMatches e.1 (u, v))).length ≤ 1) :
    ((addRelStep table g r).edges.filter (fun e => pairMatches e.1 (u, v))).length ≤ 1 ∧
    (findEdge (addRelStep table g r) u v).map (fun e => e.2) =
      (if passingFor table u v r then
        some (PyDict.update (((findEdge g u v).map (fun e => e.2)).getD []) r)
      else (findEdge g u v).map (fun e => e.2)) := by
  rcases hs : r.get "source" with _ | s <;>
    rcases ht : r.get "target" with _ | t <;>
      simp only [addRelStep, passingFor, hs, ht]
  · exact ⟨huniq, rfl⟩
  · exact ⟨huniq, rfl⟩
  · exact ⟨huniq, rfl⟩
  · by_cases hres : (tableGet table s).isSome = true ∧ (tableGet table t).isSome = true
    · rw [if_pos hres]
      by_cases hpass : passesStrength r = true
      · rw [if_pos hpass]
        rcases hm : pairMatches (s, t) (u, v) with _ | _
        · obtain ⟨hfe, hfl⟩ := g.addEdge_other s t u v r hm
          rw [hfe, hfl]
          refine ⟨huniq, ?_⟩
          rw [if_neg]
          simp [hres.1, hres.2, hpass, hm]
        · obtain ⟨h1, h2⟩ := g.addEdge_match s t u v r hm huniq
          refine ⟨h1, ?_⟩
          rw [h2, if_pos]
          simp [hres.1, hres.2, hpass, hm]
      · rw [if_neg hpass]
        refine ⟨huniq, ?_⟩
        rw [if_neg]
        simp [hpass]
    · rw [if_neg hres]
      refine ⟨huniq, ?_⟩
      rw [if_neg]
      intro hcon
      rcases Bool.and_eq_true_iff.mp hcon with ⟨hcon2, _⟩
      rcases Bool.and_eq_true_iff.mp hcon2 with ⟨hcon3, _⟩
      rcases Bool.and_eq_true_iff.mp hcon3 with ⟨hs', ht'⟩
      exact hres ⟨hs', ht'⟩

/-- Edge-data characterisation over a full relationship list: the `{u, v}`
edge carries the left fold of `dict.update` over exactly the passing records
for that pair, starting from the incoming edge data. -/
theorem addRelationships_edge_data (table : EntityTable) (u v : Val) :
    ∀ (rels : List PyDict) (g : Graph),
      (g.edges.filter (fun e => pairMatches e.1 (u, v))).length ≤ 1 →
      ((addRelationships g table rels).edges.filter
        (fun e => pairMatches e.1 (u, v))).length ≤ 1 ∧
      (findEdge (addRelationships g table rels) u v).map (fun e => e.2) =
        (rels.filter (passingFor table u v)).foldl
          (fun acc r => some (PyDict.update (acc.getD []) r))
          ((findEdge g u v).map (fun e => e.2)) := by
  intro rels
  induction rels with
  | nil => intro g hg; exact ⟨hg, rfl⟩
  | cons r rest ih =>
    intro g hg
    obtain ⟨h1, h2⟩ := addRelStep_edge_data table u v g r hg
    obtain ⟨h3, h4⟩ := ih (addRelStep table g r) h1
    refine ⟨h3, ?_⟩
    show (findEdge (addRelationships (addRelStep table g r) table rest) u v).map
      (fun e => e.2) = _
    rw [h4, h2, List.filter_cons]
    rcases hpf : passingFor table u v r with _ | _ <;>
      simp [List.foldl_cons]

/-- C10, corrected: multiple relationship records on one unordered pair
produce exactly one edge, but the edge's attributes are NOT simply those of
the last passing record: `nx.Graph.add_edge` merges attribute dicts with
`dict.update`, so the edge data is the per-key last-write-wins union of all
passing records for the pair (a key set by an earlier record and absent from
later ones survives).  Records that fail validation never touch the edge. -/
theorem duplicate_edge_merge_semantics (ents rels : List PyDict) (u v : Val) :
    (((buildNetwork ents rels).1.edges.filter
      (fun e => pairMatches e.1 (u, v))).length ≤ 1) ∧
    ((findEdge (buildNetwork ents rels).1 u v).map (fun e => e.2) =
      (rels.filter (passingFor (buildNetwork ents rels).2.1 u v)).foldl
        (fun acc r => some (PyDict.update (acc.getD []) r)) none) :=
  addRelationships_edge_data (buildTable (processEntities ents)) u v rels
    { nodes := (buildTable (processEntities ents)).map (fun p => p.1), edges := [] }
    (Nat.zero_le 1)

/-- C10 counterexample: of the two passing records on the pair `{1, 2}`, the
second (last) has no `type` key, yet the resulting edge keeps `type = "x"`
from the first record (with the second's strength 0.9) — the edge attributes
are the merged dict, not the last record. -/
theorem duplicate_edge_last_record_counterexample :
    (findEdge (buildNetwork pairEnts dupRels).1 (Val.num 1) (Val.num 2)).map
        (fun e => e.2) =
      some [("source", Val.num 1), ("target", Val.num 2), ("type", Val.str "x"),
        ("strength", Val.num 0.9)] ∧
    PyDict.get ((dupRels.get? 1).getD []) "type" = none ∧
    (dupRels.get? 1).getD [] ≠
      [("source", Val.num 1), ("target", Val.num 2), ("type", Val.str "x"),
        ("strength", Val.num 0.9)] := by
  with_unfolding_all decide

theorem QSqrt2.add_def (x y : QSqrt2) : x + y = ⟨x.a + y.a, x.b + y.b⟩ := rfl

theorem QSqrt2.mul_def (x y : QSqrt2) :
    x * y = ⟨x.a * y.a + 2 * (x.b * y.b), x.a * y.b + x.b * y.a⟩ := rfl

theorem QSqrt2.sub_def (x y : QSqrt2) : x - y = ⟨x.a - y.a, x.b - y.b⟩ := rfl

theorem QSqrt2.neg_def (x : QSqrt2) : -x = ⟨-x.a, -x.b⟩ := rfl

theorem QSqrt2.zero_def : (0 : QSqrt2) = ⟨0, 0⟩ := rfl

theorem QSqrt2.one_def : (1 : QSqrt2) = ⟨1, 0⟩ := rfl

theorem QSqrt2.a_mk (x y : ℚ) : (⟨x, y⟩ : QSqrt2).a = x := rfl

theorem QSqrt2.b_mk (x y : ℚ) : (⟨x, y⟩ : QSqrt2).b = y := rfl

theorem QSqrt2.ofRat_def (q : ℚ) : QSqrt2.ofRat q = ⟨q, 0⟩ := rfl

theorem QSqrt2.a_zero : QSqrt2.a 0 = 0 := rfl

theorem QSqrt2.b_zero : QSqrt2.b 0 = 0 := rfl

theorem QSqrt2.a_one : QSqrt2.a 1 = 1 := rfl

theorem QSqrt2.b_one : QSqrt2.b 1 = 0 := rfl

theorem QSqrt2.mk_eq_zero (x y : ℚ) : ((⟨x, y⟩ : QSqrt2) = 0) ↔ (x = 0 ∧ y = 0) := by
  constructor
  · intro hxy
    exact ⟨congrArg QSqrt2.a hxy, congrArg QSqrt2.b hxy⟩
  · intro hxy
    rw [hxy.1, hxy.2]
    rfl

/-- One unfolding of the power-iteration loop. -/
theorem eigLoop_succ (g : Graph) (tol : ℚ) (fuel : ℕ) (x : List (Val × QSqrt2)) :
    eigLoop g tol (fuel + 1) x =
      (match QSqrt2.sqrt (QSqrt2.sum ((eigStep g x).map (fun p => p.2 * p.2))) with
      | none => none
      | some norm0 =>
        let norm := if norm0 = 0 then 1 else norm0
        let x2 := (eigStep g x).map (fun p => (p.1, p.2 * QSqrt2.inv norm))
        let diff := QSqrt2.sum (g.nodes.map (fun v =>
          QSqrt2.abs (((alookup x2 v).getD 0) - ((alookup x v).getD 0))))
        if QSqrt2.lt diff (QSqrt2.ofRat ((g.nodes.length : ℚ) * tol)) then some x2
        else eigLoop g tol fuel x2) := rfl

/-- Symbolic evaluation of `_calculate_centrality` on the graph with exactly
one edge between two distinct nodes: degree and (per-component) betweenness
and closeness are rational; the graph is connected with 2 > 1 nodes, so the
eigenvector branch runs the genuine power iteration, which converges on its
second pass to `√2/2` per node. -/
theorem one_edge_centrality_maps (a b : Val) (r : PyDict) (h : a ≠ b) :
    calculateCentrality { nodes := [a, b], edges := [((a, b), r)] } =
      some { degree_centrality := [(a, 1), (b, 1)],
             betweenness_centrality := [(a, 0), (b, 0)],
             eigenvector_centrality := [(a, ⟨0, 1/2⟩), (b, ⟨0, 1/2⟩)],
             closeness_centrality := [(a, 1), (b, 1)] } := by
  have hs2 : QSqrt2.sqrt ⟨2, 0⟩ = some ⟨0, 1⟩ := by with_unfolding_all decide
  have hs4 : QSqrt2.sqrt ⟨4, 0⟩ = some ⟨2, 0⟩ := by with_unfolding_all decide
  have hdeg : degreeCentrality ⟨[a, b], [((a, b), r)]⟩ = [(a, 1), (b, 1)] := by
    norm_num [degreeCentrality, Graph.degree, h, Ne.symm h]
  have hclose : closenessCentrality ⟨[a, b], [((a, b), r)]⟩ = [(a, 1), (b, 1)] := by
    norm_num [closenessCentrality, Graph.distsFrom, bfsAux, Graph.neighbors, h,
      Ne.symm h, List.eraseDups, List.eraseDups.loop, List.elem]
  have hconn : Graph.isConnected ⟨[a, b], [((a, b), r)]⟩ = true := by
    norm_num [Graph.isConnected, Graph.distsFrom, bfsAux, Graph.neighbors, h, Ne.symm h,
      List.eraseDups, List.eraseDups.loop, List.elem]
  have hper : perComponentBetweenness ⟨[a, b], [((a, b), r)]⟩ = [(a, 0), (b, 0)] := by
    norm_num [perComponentBetweenness, Graph.components, Graph.subgraph, Graph.distsFrom,
      bfsAux, Graph.neighbors, h, Ne.symm h, List.eraseDups, List.eraseDups.loop,
      List.elem, betweennessCentrality, betweennessRaw, pairDependency, List.contains]
  have heig : eigenvectorCentrality ⟨[a, b], [((a, b), r)]⟩ =
      some [(a, (⟨0, 1/2⟩ : QSqrt2)), (b, ⟨0, 1/2⟩)] := by
    unfold eigenvectorCentrality
    norm_num [QSqrt2.ofRat_def]
    rw [show (1000 : ℕ) = 999 + 1 from rfl, eigLoop_succ]
    norm_num [eigStep, alookup, Graph.neighbors, h, Ne.symm h, QSqrt2.sum, hs2,
      QSqrt2.nonneg, QSqrt2.inv, QSqrt2.abs, QSqrt2.lt, QSqrt2.le,
      QSqrt2.ofRat_def, QSqrt2.add_def, QSqrt2.mul_def, QSqrt2.sub_def, QSqrt2.neg_def,
      QSqrt2.zero_def, QSqrt2.one_def, QSqrt2.a_mk, QSqrt2.b_mk,
      QSqrt2.a_zero, QSqrt2.b_zero, QSqrt2.a_one, QSqrt2.b_one, QSqrt2.mk_eq_zero]
    rw [show (999 : ℕ) = 998 + 1 from rfl, eigLoop_succ]
    norm_num [eigStep, alookup, Graph.neighbors, h, Ne.symm h, QSqrt2.sum, hs4,
      QSqrt2.nonneg, QSqrt2.inv, QSqrt2.abs, QSqrt2.lt, QSqrt2.le,
      QSqrt2.ofRat_def, QSqrt2.add_def, QSqrt2.mul_def, QSqrt2.sub_def, QSqrt2.neg_def,
      QSqrt2.zero_def, QSqrt2.one_def, QSqrt2.a_mk, QSqrt2.b_mk,
      QSqrt2.a_zero, QSqrt2.b_zero, QSqrt2.a_one, QSqrt2.b_one, QSqrt2.mk_eq_zero]
  unfold calculateCentrality
  rw [if_neg (by norm_num)]
  rw [heig, hdeg, hclose, hconn, hper]
  norm_num

/-- C6, corrected: on a graph with exactly one edge between two nodes the
closeness centrality values do equal the degree centrality values, but the
eigenvector values do not: the graph is connected with more than one node, so
no fallback to degree values happens — the power iteration runs and returns
`√2/2 ≈ 0.707` per node, while each degree centrality value is `1`. -/
theorem one_edge_eigenvector_closeness (a b : Val) (r : PyDict) (h : a ≠ b) :
    ∃ m, calculateCentrality { nodes := [a, b], edges := [((a, b), r)] } = some m ∧
      m.closeness_centrality = m.degree_centrality ∧
      m.eigenvector_centrality = [(a, ⟨0, 1/2⟩), (b, ⟨0, 1/2⟩)] ∧
      m.eigenvector_centrality ≠ toQ2Map m.degree_centrality := by
  refine ⟨_, one_edge_centrality_maps a b r h, rfl, rfl, ?_⟩
  intro hcon
  norm_num [toQ2Map, QSqrt2.ofRat_def, QSqrt2.mk.injEq] at hcon

/-- Witness for `one_edge_eigenvector_closeness`. -/
theorem one_edge_eigenvector_closeness_witness :
    (Val.num 0 ≠ Val.num 1) ∧
    ∃ m, calculateCentrality kTwoGraph = some m ∧
      m.closeness_centrality = m.degree_centrality ∧
      m.eigenvector_centrality = [(Val.num 0, ⟨0, 1/2⟩), (Val.num 1, ⟨0, 1/2⟩)] ∧
      m.eigenvector_centrality ≠ toQ2Map m.degree_centrality :=
  ⟨by decide, one_edge_eigenvector_closeness (Val.num 0) (Val.num 1)
    [("source", Val.num 0), ("target", Val.num 1)] (by decide)⟩

/-- C6 counterexample: on the one-edge two-node graph the returned
eigenvector centrality values (`√2/2` each) differ from the degree
centrality values (`1` each), refuting the claimed equality. -/
theorem one_edge_eigenvector_counterexample :
    (calculateCentrality kTwoGraph).map (fun m => m.eigenvector_centrality) ≠
      (calculateCentrality kTwoGraph).map (fun m => toQ2Map m.degree_centrality) := by
  with_unfolding_all decide

end Krystal
